import Mathlib

/-!
Verification of the WEkEO HDA API client functions
(`src/wekeo-hda/.ipynb_checkpoints/hda_api_functions-checkpoint.ipynb`).

The Python functions are shallowly embedded: HTTP interactions are
abstracted as response values (or streams of responses for polling
loops), strings holding raw bytes are `List Nat` of byte values, and the
unbounded `while` loops are given as fuel-indexed step functions, so
that divergence of the source loop corresponds to no amount of fuel
reaching the exit condition.
-/

namespace Hda

/-! ### Base64 (Python `base64.b64encode` with default alphabet, as used
by `generate_api_key`).  Characters are modelled by their ASCII codes;
61 is the pad character. -/

/-- ASCII code of the standard-alphabet base64 digit for a 6-bit value,
as produced by `base64.b64encode(..., altchars=None)`. -/
def b64char (v : Nat) : Nat :=
  if v < 26 then 65 + v
  else if v < 52 then 97 + (v - 26)
  else if v < 62 then 48 + (v - 52)
  else if v = 62 then 43
  else 47

/-- Inverse digit lookup: the 6-bit value of an ASCII base64 digit,
`none` for characters outside the standard alphabet (including the
pad character 61). -/
def b64val (c : Nat) : Option Nat :=
  if 65 ≤ c ∧ c ≤ 90 then some (c - 65)
  else if 97 ≤ c ∧ c ≤ 122 then some (c - 97 + 26)
  else if 48 ≤ c ∧ c ≤ 57 then some (c - 48 + 52)
  else if c = 43 then some 62
  else if c = 47 then some 63
  else none

/-- RFC 4648 base64 encoding of a byte sequence, with padding, as
performed by Python `base64.b64encode`. -/
def b64encode : List Nat → List Nat
  | [] => []
  | [a] => [b64char (a / 4), b64char (a % 4 * 16), 61, 61]
  | [a, b] => [b64char (a / 4), b64char (a % 4 * 16 + b / 16),
               b64char (b % 16 * 4), 61]
  | a :: b :: c :: rest =>
      b64char (a / 4) :: b64char (a % 4 * 16 + b / 16) ::
      b64char (b % 16 * 4 + c / 64) :: b64char (c % 64) :: b64encode rest

/-- RFC 4648 base64 decoding (Python `base64.b64decode`): groups of four
digits yield three bytes; a final group may carry one or two pad
characters. -/
def b64decode : List Nat → Option (List Nat)
  | [] => some []
  | c1 :: c2 :: c3 :: c4 :: rest =>
      match b64val c1, b64val c2 with
      | some v1, some v2 =>
          if c3 = 61 then
            if c4 = 61 ∧ rest = [] then some [v1 * 4 + v2 / 16] else none
          else
            match b64val c3 with
            | some v3 =>
                if c4 = 61 then
                  if rest = [] then
                    some [v1 * 4 + v2 / 16, v2 % 16 * 16 + v3 / 4]
                  else none
                else
                  match b64val c4 with
                  | some v4 =>
                      (b64decode rest).map
                        (fun t => (v1 * 4 + v2 / 16) ::
                                  (v2 % 16 * 16 + v3 / 4) ::
                                  (v3 % 4 * 64 + v4) :: t)
                  | none => none
            | none => none
      | _, _ => none
  | _ => none

/-- `generate_api_key(username, password)` returns
`base64.b64encode(str.encode(username + ":" + password)).decode()`:
the base64 encoding of the bytes of the username, a colon (byte 58),
and the password. -/
def generate_api_key (username password : List Nat) : List Nat :=
  b64encode (username ++ 58 :: password)

theorem b64val_b64char : ∀ v < 64, b64val (b64char v) = some v := by decide

theorem b64char_ne_pad : ∀ v < 64, b64char v ≠ 61 := by decide

theorem b64_roundtrip : ∀ bs : List Nat, (∀ b ∈ bs, b < 256) →
    b64decode (b64encode bs) = some bs := by
  intro bs
  induction bs using b64encode.induct with
  | case1 => intro _; simp [b64encode, b64decode]
  | case2 a =>
      intro h
      have ha : a < 256 := h a (by simp)
      have e1 := b64val_b64char (a / 4) (by omega)
      have e2 := b64val_b64char (a % 4 * 16) (by omega)
      simp only [b64encode, b64decode, e1, e2, and_self, if_true,
        Option.some.injEq, List.cons.injEq, and_true]
      omega
  | case3 a b =>
      intro h
      have ha : a < 256 := h a (by simp)
      have hb : b < 256 := h b (by simp)
      have e1 := b64val_b64char (a / 4) (by omega)
      have e2 := b64val_b64char (a % 4 * 16 + b / 16) (by omega)
      have e3 := b64val_b64char (b % 16 * 4) (by omega)
      simp only [b64encode, b64decode, e1, e2]
      rw [if_neg (b64char_ne_pad (b % 16 * 4) (by omega))]
      simp only [e3, if_true, Option.some.injEq, List.cons.injEq, and_true]
      omega
  | case4 a b c rest ih =>
      intro h
      have ha : a < 256 := h a (by simp)
      have hb : b < 256 := h b (by simp)
      have hc : c < 256 := h c (by simp)
      have hrest : ∀ x ∈ rest, x < 256 := by
        intro x hx; exact h x (by simp [hx])
      have e1 := b64val_b64char (a / 4) (by omega)
      have e2 := b64val_b64char (a % 4 * 16 + b / 16) (by omega)
      have e3 := b64val_b64char (b % 16 * 4 + c / 64) (by omega)
      have e4 := b64val_b64char (c % 64) (by omega)
      simp only [b64encode, b64decode, e1, e2]
      rw [if_neg (b64char_ne_pad (b % 16 * 4 + c / 64) (by omega))]
      simp only [e3]
      rw [if_neg (b64char_ne_pad (c % 64) (by omega))]
      simp only [e4, ih hrest, Option.map_some', Option.some.injEq,
        List.cons.injEq, and_true]
      omega

/-! ### Status polling (`get_request_status`, `get_order_status`)

Both source functions run the identical loop
`status = "not started"; count = 0; while status != "completed": count += 1;
if count > 20: time.sleep(5); response = GET ...; if response.status_code == 200:
status = parsed status else print error`.  The status endpoint is abstracted
as a stream `resp : Nat → StatusResponse` giving the response to the
i-th poll (0-indexed); the while loop is fuel-indexed. -/

/-- Response of one GET to a status endpoint: HTTP status code, and the
`status` field parsed from the JSON body (only read when the code is 200). -/
structure StatusResponse where
  code : Nat
  status : String
deriving DecidableEq

/-- A poll ends the loop exactly when it returns HTTP 200 with body status
equal to the string "completed". -/
def isCompletedResp (r : StatusResponse) : Bool :=
  r.code == 200 && r.status == "completed"

/-- State of the polling loop: the `status` variable, the `count` of polls
performed so far, and the seconds slept before each poll, in poll order
(0 for the tight-loop polls, 5 once `count > 20`). -/
structure PollState where
  status : String
  count : Nat
  sleeps : List Nat
deriving DecidableEq

/-- Loop state on entry: `status = "not started"`, `count = 0`. -/
def initPollState : PollState := ⟨"not started", 0, []⟩

/-- One iteration of the loop body: increment `count`, sleep 5 seconds when
`count > 20`, issue the GET, and overwrite `status` from the body exactly
when the HTTP code is 200 (a non-200 response only prints and leaves
`status` unchanged). -/
def pollOnce (resp : Nat → StatusResponse) (s : PollState) : PollState :=
  let count := s.count + 1
  let slept := if count > 20 then 5 else 0
  let r := resp s.count
  let status := if r.code = 200 then r.status else s.status
  ⟨status, count, s.sleeps ++ [slept]⟩

/-- Fuel-indexed run of `while status != "completed"`: with fuel `n` at most
`n` iterations are performed; the source loop diverges exactly when no
amount of fuel reaches `status = "completed"`. -/
def runPoll (resp : Nat → StatusResponse) : Nat → PollState → PollState
  | 0, s => s
  | fuel + 1, s =>
      if s.status = "completed" then s else runPoll resp fuel (pollOnce resp s)

/-- Embedding of `get_request_status(hda_dict)`: run the polling loop
against the job-status endpoint from the initial state. -/
def get_request_status (resp : Nat → StatusResponse) (fuel : Nat) : PollState :=
  runPoll resp fuel initPollState

/-- Embedding of `get_order_status(hda_dict, order_id)`: the loop body is
identical to `get_request_status`, against the order-status endpoint
(the returned last response is not modelled; no claim depends on it). -/
def get_order_status (resp : Nat → StatusResponse) (fuel : Nat) : PollState :=
  runPoll resp fuel initPollState

/-! ### Job submission (`get_job_id`) -/

/-- Response of the job-creation POST: HTTP code, and the `jobId` field of
the body (only read when the code is 200). -/
structure JobResponse where
  code : Nat
  jobId : String
deriving DecidableEq

/-- Embedding of `get_job_id(hda_dict, data)`: on HTTP 200 the job id is
taken from the response, otherwise it is set to the empty string; in both
cases the function then calls `get_request_status(hda_dict)`
unconditionally before returning.  Returns the stored job id and the
polling state produced by that call. -/
def get_job_id (resp : JobResponse) (statusResp : Nat → StatusResponse)
    (fuel : Nat) : String × PollState :=
  let job_id := if resp.code = 200 then resp.jobId else ""
  (job_id, get_request_status statusResp fuel)

/-! ### Order requests (`get_order_ids`) -/

/-- One entry of `hda_dict["results"]["content"]`: the download `url` and the
`size` in bytes. -/
structure ResultDesc where
  url : String
  size : Nat
deriving DecidableEq

/-- Response of one order-creation POST: HTTP code, and the `orderId` field
of the body (only read when the code is 200). -/
structure OrderResponse where
  code : Nat
  orderId : String
deriving DecidableEq

/-- Loop body of `get_order_ids` over the remaining results, carrying the
loop counter `i` and the accumulated `order_ids` and `order_sizes`
lists: `order_sizes.append(result["size"])` happens unconditionally,
then the order POST is issued; on HTTP 200 the returned order id is
appended to `order_ids` and the success branch then reads
`order_ids[i]` (in the print and in the `get_order_status` call) — a
read that raises `IndexError` whenever `i` is not in range of the
grown list, i.e. whenever some earlier order failed; the raised
exception propagates out of `get_order_ids` before the lists are ever
stored into the session, modelled as `none`.  A non-200 response only
prints an error and the loop continues with the next result.  The inner
`get_order_status` call itself only feeds the `order_status_response`
key and is modelled separately by `get_order_status`; it touches
neither list. -/
def getOrderIdsLoop (resp : Nat → OrderResponse) :
    List ResultDesc → Nat → List String → List Nat →
      Option (List String × List Nat)
  | [], _, order_ids, order_sizes => some (order_ids, order_sizes)
  | r :: rest, i, order_ids, order_sizes =>
      let sizes2 := order_sizes ++ [r.size]
      if (resp i).code = 200 then
        let ids2 := order_ids ++ [(resp i).orderId]
        if i < ids2.length then
          getOrderIdsLoop resp rest (i + 1) ids2 sizes2
        else
          none
      else
        getOrderIdsLoop resp rest (i + 1) order_ids sizes2

/-- Embedding of `get_order_ids(hda_dict)`: runs the loop from
`i = 0, order_ids = [], order_sizes = []`; `some (ids, sizes)` are the
lists stored back into the session on normal completion, `resp i` being
the response to the order POST for the i-th result; `none` models the
`IndexError` escaping the function, in which case nothing is stored. -/
def get_order_ids (resp : Nat → OrderResponse) (results : List ResultDesc) :
    Option (List String × List Nat) :=
  getOrderIdsLoop resp results 0 [] []

/-! ### Terms and conditions (`acceptTandC`) -/

/-- Server-side state of the terms-acceptance flag, as read by the GET and
set by the PUT of the termsaccepted endpoint. -/
structure TandCServer where
  accepted : Bool
deriving DecidableEq

/-- Observable outcome of one `acceptTandC(hda_dict)` call: the server state
afterwards, the number of PUT acceptance requests issued, and the
`isTandCAccepted` value stored in the session (re-read from the response
of the last request made). -/
structure TandCOutcome where
  server : TandCServer
  puts : Nat
  isTandCAccepted : Bool
deriving DecidableEq

/-- Embedding of `acceptTandC(hda_dict)`: GET the accepted flag; if it is
`False`, issue one PUT (which records acceptance server-side, so its
response body carries `accepted: true`); otherwise make no further
request.  The session's `isTandCAccepted` is parsed from the response of
the last request made. -/
def acceptTandC (s : TandCServer) : TandCOutcome :=
  let isAcc := s.accepted
  if isAcc = false then
    let s2 : TandCServer := ⟨true⟩
    ⟨s2, 1, s2.accepted⟩
  else
    ⟨s, 0, s.accepted⟩

/-! ### Download (`downloadFile`) -/

/-- State of the download loop: the bytes written to the open file so far,
and the cumulative byte counter `dl` used for progress reporting. -/
structure DLState where
  file : List Nat
  dl : Nat
deriving DecidableEq

/-- One iteration of `for chunk in r.iter_content(64738)`:
`dl += len(chunk); f.write(chunk)`. -/
def dlStep (st : DLState) (chunk : List Nat) : DLState :=
  ⟨st.file ++ chunk, st.dl + chunk.length⟩

/-- Embedding of `downloadFile(url, headers, directory, file_name,
total_length)`: the streamed GET is abstracted as its HTTP code plus the
list of body chunks.  Only under `r.status_code == 200` is the target
file opened and the chunk loop run, and only that branch returns the
elapsed time; `some st` models that return with `st.file` the bytes
written.  On any other code the function body ends without opening a
file, writing a byte, or executing a return, so Python yields `None`,
modelled as `none`. -/
def downloadFile (code : Nat) (chunks : List (List Nat)) : Option DLState :=
  if code = 200 then some (chunks.foldl dlStep ⟨[], 0⟩) else none

/-- Cumulative `dl` counter reported after the first `n` chunks of the
download loop have been processed. -/
def dlAfter (chunks : List (List Nat)) (n : Nat) : Nat :=
  ((chunks.take n).foldl dlStep ⟨[], 0⟩).dl

/-! ### Token request (`get_access_token`) -/

/-- Response of the token GET: HTTP code, and the `access_token` field of
the body (only read when the code is 200). -/
structure TokenResponse where
  code : Nat
  access_token : String
deriving DecidableEq

/-- Session keys touched by `get_access_token`: `none` models a key absent
from `hda_dict`. -/
structure AuthSession where
  access_token : Option String
  headers : Option String
deriving DecidableEq

/-- Embedding of `get_access_token(hda_dict)`: on HTTP 200 the local
`access_token` is bound and the session's `access_token` and `headers`
keys are set from it.  On any other code the local variable is never
bound, so the assignment `hda_dict["access_token"] = access_token`
raises `UnboundLocalError` before touching the dictionary: the session
is returned unchanged with the raised flag `true`. -/
def get_access_token (hda : AuthSession) (resp : TokenResponse) :
    AuthSession × Bool :=
  if resp.code = 200 then
    ({ access_token := some resp.access_token,
       headers := some ("Bearer " ++ resp.access_token) }, false)
  else
    (hda, true)

/-- A subsequent API call reading `hda_dict["headers"]`: it fails with a
`KeyError` when the key was never stored. -/
def requestWithHeaders (hda : AuthSession) : Except String String :=
  match hda.headers with
  | some h => Except.ok h
  | none => Except.error "KeyError"

/-- Seconds slept before each of the next `n` polls when `c` polls have
already been counted: 0 while the incremented counter stays at most 20,
then 5 per poll. -/
def sleepSchedule (c : Nat) : Nat → List Nat
  | 0 => []
  | n + 1 => (if c + 1 > 20 then 5 else 0) :: sleepSchedule (c + 1) n

/-! ### Lemmas about the polling loop -/

theorem isCompletedResp_iff (r : StatusResponse) :
    isCompletedResp r = true ↔ r.code = 200 ∧ r.status = "completed" := by
  simp [isCompletedResp]

theorem runPoll_of_completed (resp : Nat → StatusResponse) (fuel : Nat)
    (s : PollState) (h : s.status = "completed") : runPoll resp fuel s = s := by
  cases fuel with
  | zero => rfl
  | succ n => simp [runPoll, h]

theorem pollOnce_count (resp : Nat → StatusResponse) (s : PollState) :
    (pollOnce resp s).count = s.count + 1 := rfl

theorem pollOnce_status_ne (resp : Nat → StatusResponse) (s : PollState)
    (hs : s.status ≠ "completed")
    (h : isCompletedResp (resp s.count) = false) :
    (pollOnce resp s).status ≠ "completed" := by
  simp only [pollOnce]
  by_cases hc : (resp s.count).code = 200
  · simp only [if_pos hc]
    intro hcontra
    have : isCompletedResp (resp s.count) = true :=
      (isCompletedResp_iff _).mpr ⟨hc, hcontra⟩
    rw [h] at this
    exact Bool.false_ne_true this
  · simpa [hc] using hs

theorem sleepSchedule_length (c n : Nat) : (sleepSchedule c n).length = n := by
  induction n generalizing c with
  | zero => rfl
  | succ m ih => simp [sleepSchedule, ih]

theorem sleepSchedule_get : ∀ (n c i : Nat), i < n →
    (sleepSchedule c n)[i]? = some (if c + i + 1 > 20 then 5 else 0) := by
  intro n
  induction n with
  | zero => intro c i hi; omega
  | succ m ih =>
      intro c i hi
      cases i with
      | zero => simp [sleepSchedule]
      | succ j =>
          have := ih (c + 1) j (by omega)
          simp only [sleepSchedule, List.getElem?_cons_succ]
          rw [this]
          congr 1
          have : c + 1 + j + 1 = c + (j + 1) + 1 := by omega
          rw [this]

theorem runPoll_first_completed (resp : Nat → StatusResponse) :
    ∀ (N : Nat) (s : PollState) (fuel : Nat), 0 < N → N ≤ fuel →
      s.status ≠ "completed" →
      (∀ j, j < N - 1 → isCompletedResp (resp (s.count + j)) = false) →
      isCompletedResp (resp (s.count + (N - 1))) = true →
      runPoll resp fuel s =
        ⟨"completed", s.count + N, s.sleeps ++ sleepSchedule s.count N⟩ := by
  intro N
  induction N with
  | zero => intro s fuel h; omega
  | succ n ih =>
      intro s fuel _ hfuel hs hbefore hlast
      obtain ⟨f, rfl⟩ : ∃ f, fuel = f + 1 := ⟨fuel - 1, by omega⟩
      rw [runPoll, if_neg hs]
      by_cases hn : n = 0
      · subst hn
        have hc : isCompletedResp (resp s.count) = true := by
          simpa using hlast
        have hcode := (isCompletedResp_iff _).mp hc
        have hpoll : pollOnce resp s =
            ⟨"completed", s.count + 1,
             s.sleeps ++ [if s.count + 1 > 20 then 5 else 0]⟩ := by
          simp [pollOnce, hcode.1, hcode.2]
        rw [hpoll, runPoll_of_completed _ _ _ rfl]
        simp [sleepSchedule]
      · have h0 : isCompletedResp (resp s.count) = false := by
          simpa using hbefore 0 (by omega)
        have hs2 : (pollOnce resp s).status ≠ "completed" :=
          pollOnce_status_ne resp s hs h0
        have hb2 : ∀ j, j < n - 1 →
            isCompletedResp (resp ((pollOnce resp s).count + j)) = false := by
          intro j hj
          rw [pollOnce_count, show s.count + 1 + j = s.count + (j + 1) from by omega]
          exact hbefore (j + 1) (by omega)
        have hl2 : isCompletedResp
            (resp ((pollOnce resp s).count + (n - 1))) = true := by
          rw [pollOnce_count,
            show s.count + 1 + (n - 1) = s.count + (n + 1 - 1) from by omega]
          exact hlast
        rw [ih (pollOnce resp s) f (by omega) (by omega) hs2 hb2 hl2]
        simp only [pollOnce, PollState.mk.injEq]
        refine ⟨trivial, by omega, ?_⟩
        have hsch : sleepSchedule s.count (n + 1) =
            (if s.count + 1 > 20 then 5 else 0) :: sleepSchedule (s.count + 1) n := rfl
        rw [hsch, List.append_assoc, List.singleton_append]

theorem runPoll_completes_of_exists (resp : Nat → StatusResponse) :
    ∀ (fuel : Nat) (s : PollState),
      (∃ i, i < fuel ∧ isCompletedResp (resp (s.count + i)) = true) →
      (runPoll resp fuel s).status = "completed" := by
  intro fuel
  induction fuel with
  | zero =>
      intro s h
      obtain ⟨i, hi, _⟩ := h
      omega
  | succ n ih =>
      intro s h
      obtain ⟨i, hi, hcomp⟩ := h
      by_cases hs : s.status = "completed"
      · rw [runPoll, if_pos hs]; exact hs
      · rw [runPoll, if_neg hs]
        by_cases hc : isCompletedResp (resp s.count) = true
        · have hcode := (isCompletedResp_iff _).mp hc
          have hpoll : (pollOnce resp s).status = "completed" := by
            simp [pollOnce, hcode.1, hcode.2]
          rw [runPoll_of_completed _ _ _ hpoll]
          exact hpoll
        · cases i with
          | zero => exact absurd (by simpa using hcomp) hc
          | succ j =>
              apply ih (pollOnce resp s)
              refine ⟨j, by omega, ?_⟩
              rw [pollOnce_count,
                show s.count + 1 + j = s.count + (j + 1) from by omega]
              exact hcomp

theorem exists_of_runPoll_completes (resp : Nat → StatusResponse) :
    ∀ (fuel : Nat) (s : PollState),
      (runPoll resp fuel s).status = "completed" →
      s.status = "completed" ∨ ∃ i, isCompletedResp (resp (s.count + i)) = true := by
  intro fuel
  induction fuel with
  | zero => intro s h; exact Or.inl h
  | succ n ih =>
      intro s h
      by_cases hs : s.status = "completed"
      · exact Or.inl hs
      · rw [runPoll, if_neg hs] at h
        rcases ih (pollOnce resp s) h with h2 | ⟨i, hi⟩
        · right
          by_cases hc : (resp s.count).code = 200
          · refine ⟨0, ?_⟩
            have : (resp s.count).status = "completed" := by
              simpa [pollOnce, hc] using h2
            simpa using (isCompletedResp_iff _).mpr ⟨hc, this⟩
          · exact absurd (by simpa [pollOnce, hc] using h2) hs
        · right
          refine ⟨i + 1, ?_⟩
          rw [pollOnce_count] at hi
          rwa [show s.count + (i + 1) = s.count + 1 + i from by omega]

theorem runPoll_count_le (resp : Nat → StatusResponse) :
    ∀ (fuel : Nat) (s : PollState), s.count ≤ (runPoll resp fuel s).count := by
  intro fuel
  induction fuel with
  | zero => intro s; exact Nat.le_refl _
  | succ n ih =>
      intro s
      by_cases hs : s.status = "completed"
      · rw [runPoll, if_pos hs]
      · rw [runPoll, if_neg hs]
        have := ih (pollOnce resp s)
        rw [pollOnce_count] at this
        omega

/-! ### Claim theorems: polling -/

/-- Claim C2: if the Nth poll is the first to return HTTP 200 with status
exactly "completed", then `get_request_status` performs exactly N polls
and stops with status "completed"; the seconds slept before each poll
are given by `sleepSchedule 0 N`, whose i-th entry (poll i+1) is 0 for
the first 20 polls and 5 for every later poll.  Earlier polls may carry
any other status string (such as "failed") or any non-200 code without
ending the loop. -/
theorem get_request_status_first_completed (resp : Nat → StatusResponse)
    (N fuel : Nat) (hN : 0 < N) (hfuel : N ≤ fuel)
    (hbefore : ∀ j, j < N - 1 → isCompletedResp (resp j) = false)
    (hlast : isCompletedResp (resp (N - 1)) = true) :
    get_request_status resp fuel = ⟨"completed", N, sleepSchedule 0 N⟩ ∧
    (∀ i, i < N → (sleepSchedule 0 N)[i]? =
      some (if i + 1 > 20 then 5 else 0)) := by
  constructor
  · have hb : ∀ j, j < N - 1 →
        isCompletedResp (resp (initPollState.count + j)) = false := by
      intro j hj
      simpa [initPollState] using hbefore j hj
    have hl : isCompletedResp (resp (initPollState.count + (N - 1))) = true := by
      simpa [initPollState] using hlast
    have := runPoll_first_completed resp N initPollState fuel hN hfuel
      (by simp [initPollState]) hb hl
    simpa [get_request_status, initPollState] using this
  · intro i hi
    simpa using sleepSchedule_get N 0 i hi

/-- Status stream for the witness of C2: polls 1 and 2 return 200 with
status "running", poll 3 returns 200 with status "completed". -/
def respFirstCompletedAt3 : Nat → StatusResponse :=
  fun i => if i < 2 then ⟨200, "running"⟩ else ⟨200, "completed"⟩

/-- Witness for C2 at a concrete stream: completion on the third poll gives
exactly 3 polls, none preceded by a sleep. -/
theorem get_request_status_first_completed_witness :
    get_request_status respFirstCompletedAt3 5 = ⟨"completed", 3, [0, 0, 0]⟩ := by
  have h := get_request_status_first_completed respFirstCompletedAt3 3 5
    (by omega) (by omega) (by decide) (by decide)
  have hs : sleepSchedule 0 3 = [0, 0, 0] := by decide
  rw [h.1, hs]

/-- Claim C3: both polling loops (`get_request_status` and
`get_order_status`) have no retry bound: the loop reaches the exit
status "completed" for some amount of fuel if and only if some poll in
the stream returns HTTP 200 with status "completed"; in particular for
a stream where that never happens (for example, only non-200 error
responses) no amount of fuel terminates the loop. -/
theorem polling_loops_unbounded (resp : Nat → StatusResponse) :
    ((∃ fuel, (get_request_status resp fuel).status = "completed") ↔
      (∃ n, isCompletedResp (resp n) = true)) ∧
    ((∃ fuel, (get_order_status resp fuel).status = "completed") ↔
      (∃ n, isCompletedResp (resp n) = true)) := by
  have key : (∃ fuel, (runPoll resp fuel initPollState).status = "completed") ↔
      (∃ n, isCompletedResp (resp n) = true) := by
    constructor
    · rintro ⟨fuel, h⟩
      rcases exists_of_runPoll_completes resp fuel _ h with h2 | ⟨i, hi⟩
      · exact absurd h2 (by simp [initPollState])
      · exact ⟨i, by simpa [initPollState] using hi⟩
    · rintro ⟨n, hn⟩
      refine ⟨n + 1, runPoll_completes_of_exists resp (n + 1) _ ?_⟩
      exact ⟨n, by omega, by simpa [initPollState] using hn⟩
  exact ⟨key, key⟩

/-! ### Claim theorems: job submission -/

/-- Job-creation response used to refute the second half of claim C7:
the POST fails with HTTP 404. -/
def badJobResponse : JobResponse := ⟨404, "ignored"⟩

/-- Status stream used alongside `badJobResponse`: every poll reports
completion, so the unconditional `get_request_status` call returns
after one poll. -/
def alwaysCompleted : Nat → StatusResponse := fun _ => ⟨200, "completed"⟩

/-- Counterexample to claim C7: on a non-200 job submission the job id is
indeed set to the empty string, but status polling IS still performed —
`get_job_id` calls `get_request_status` unconditionally, so the polling
loop performs a poll (count 1 here), contradicting the claim that no
status polling happens for the failed submission. -/
theorem get_job_id_failure_still_polls :
    (get_job_id badJobResponse alwaysCompleted 1).1 = "" ∧
    ¬ ((get_job_id badJobResponse alwaysCompleted 1).2.count = 0) := by
  constructor
  · rfl
  · decide

/-- Claim C7 (amended): when job submission fails with a non-200 response,
`get_job_id` stores the empty string as job id, but then still calls
`get_request_status` unconditionally: with any fuel at least 1 the
polling loop performs at least one poll against the status endpoint. -/
theorem get_job_id_failure (resp : JobResponse)
    (statusResp : Nat → StatusResponse) (fuel : Nat)
    (hcode : resp.code ≠ 200) (hfuel : 1 ≤ fuel) :
    (get_job_id resp statusResp fuel).1 = "" ∧
    1 ≤ (get_job_id resp statusResp fuel).2.count := by
  constructor
  · simp [get_job_id, hcode]
  · show 1 ≤ (get_request_status statusResp fuel).count
    obtain ⟨f, rfl⟩ : ∃ f, fuel = f + 1 := ⟨fuel - 1, by omega⟩
    rw [get_request_status, runPoll, if_neg (by simp [initPollState])]
    have := runPoll_count_le statusResp f (pollOnce statusResp initPollState)
    rw [pollOnce_count] at this
    simpa [initPollState] using this

/-- Witness for the amended C7 at a concrete failing submission. -/
theorem get_job_id_failure_witness :
    (get_job_id badJobResponse alwaysCompleted 1).1 = "" ∧
    1 ≤ (get_job_id badJobResponse alwaysCompleted 1).2.count :=
  get_job_id_failure badJobResponse alwaysCompleted 1 (by decide) (by decide)

/-! ### Lemmas about `get_order_ids` -/

theorem getOrderIdsLoop_run (resp : Nat → OrderResponse) :
    ∀ (results : List ResultDesc) (m i : Nat) (ids : List String)
      (sizes : List Nat),
      m ≤ results.length →
      (0 < m → ids.length = i) →
      (∀ q, q < m → (resp (i + q)).code = 200) →
      (∀ q, m ≤ q → q < results.length → (resp (i + q)).code ≠ 200) →
      getOrderIdsLoop resp results i ids sizes =
        some (ids ++ (List.range m).map (fun q => (resp (i + q)).orderId),
              sizes ++ results.map ResultDesc.size) := by
  intro results
  induction results with
  | nil =>
      intro m i ids sizes hm _ _ _
      have hm0 : m = 0 := by simpa using hm
      subst hm0
      simp [getOrderIdsLoop]
  | cons r rest ih =>
      intro m i ids sizes hm hinv hsucc hfail
      cases m with
      | zero =>
          have h0 : (resp i).code ≠ 200 := by
            simpa using hfail 0 (by omega) (by simp)
          simp only [getOrderIdsLoop, if_neg h0]
          have hfail2 : ∀ q, 0 ≤ q → q < rest.length →
              (resp (i + 1 + q)).code ≠ 200 := by
            intro q _ hq
            have := hfail (q + 1) (by omega) (by simpa using Nat.succ_lt_succ hq)
            rwa [show i + (q + 1) = i + 1 + q from by omega] at this
          rw [ih 0 (i + 1) ids (sizes ++ [r.size]) (by omega)
            (by intro hq; omega) (by intro q hq; omega) hfail2]
          simp [List.append_assoc]
      | succ q0 =>
          have hs0 : (resp i).code = 200 := by simpa using hsucc 0 (by omega)
          have hlen : ids.length = i := hinv (by omega)
          have hrange : i < (ids ++ [(resp i).orderId]).length := by
            simp [hlen]
          simp only [getOrderIdsLoop, if_pos hs0, if_pos hrange]
          have hm2 : q0 ≤ rest.length := by
            simp only [List.length_cons] at hm
            omega
          have hsucc2 : ∀ q, q < q0 → (resp (i + 1 + q)).code = 200 := by
            intro q hq
            have := hsucc (q + 1) (by omega)
            rwa [show i + (q + 1) = i + 1 + q from by omega] at this
          have hfail2 : ∀ q, q0 ≤ q → q < rest.length →
              (resp (i + 1 + q)).code ≠ 200 := by
            intro q hq1 hq2
            have := hfail (q + 1) (by omega) (by simpa using Nat.succ_lt_succ hq2)
            rwa [show i + (q + 1) = i + 1 + q from by omega] at this
          rw [ih q0 (i + 1) (ids ++ [(resp i).orderId]) (sizes ++ [r.size])
            hm2 (by intro _; simp [hlen]) hsucc2 hfail2]
          simp only [Option.some.injEq, Prod.mk.injEq]
          constructor
          · rw [List.range_succ_eq_map, List.map_cons, List.map_map]
            have hfun : (fun q => (resp (i + 1 + q)).orderId) =
                ((fun q => (resp (i + q)).orderId) ∘ Nat.succ) := by
              funext q
              simp only [Function.comp]
              rw [show i + 1 + q = i + (q + 1) from by omega]
            rw [hfun]
            simp
          · simp [List.append_assoc]

/-! ### Claim theorems: order requests -/

/-- Claim C1: when the order endpoint answers HTTP 200 for each of the K
posted orders, every `order_ids[i]` read of the success branch is in
range, so `get_order_ids` completes and stores exactly K order ids, in
result order — the i-th order id is the one returned for the i-th
result — and K sizes, the i-th being the i-th result's byte size; in
particular the two stored lists both have length K. -/
theorem get_order_ids_all_success (resp : Nat → OrderResponse)
    (results : List ResultDesc)
    (h : ∀ i, i < results.length → (resp i).code = 200) :
    get_order_ids resp results =
      some ((List.range results.length).map (fun i => (resp i).orderId),
            results.map ResultDesc.size) ∧
    ((List.range results.length).map (fun i => (resp i).orderId)).length =
      results.length ∧
    (results.map ResultDesc.size).length = results.length := by
  refine ⟨?_, by simp, by simp⟩
  have hr := getOrderIdsLoop_run resp results results.length 0 [] []
    (Nat.le_refl _) (fun _ => rfl)
    (by intro q hq; simpa using h q hq)
    (by intro q hq1 hq2; omega)
  rw [get_order_ids, hr]
  simp

/-- Order-endpoint responses for the C1 witness: every POST succeeds. -/
def respAllOrders : Nat → OrderResponse :=
  fun i => ⟨200, if i = 0 then "ord-a" else "ord-b"⟩

/-- Two result descriptors for the C1 and C4 witnesses. -/
def twoResults : List ResultDesc := [⟨"u1", 1000⟩, ⟨"u2", 2000⟩]

/-- Witness for C1: two results, both orders succeed, the call completes
and ids and sizes are index-aligned. -/
theorem get_order_ids_all_success_witness :
    get_order_ids respAllOrders twoResults =
      some (["ord-a", "ord-b"], [1000, 2000]) := by
  have h := get_order_ids_all_success respAllOrders twoResults (by decide)
  rw [h.1]
  decide

/-- Order-endpoint responses refuting claim C4 as stated: the first POST
fails with HTTP 500 and the second succeeds. -/
def respFailThenOk : Nat → OrderResponse :=
  fun i => if i = 0 then ⟨500, "none"⟩ else ⟨200, "ord-b"⟩

/-- Counterexample to claim C4: with two results, a failed first order and
a successful second order, the success branch reads `order_ids[1]`
while the list holds a single element, so `get_order_ids` raises
`IndexError` and aborts before storing either list (modelled `none`) —
refuting the claim that a failed order never aborts the run, that the
byte sizes of all K results are still recorded, and that the stored
`order_ids` is merely shorter than the stored `order_sizes`. -/
theorem get_order_ids_success_after_failure_aborts :
    get_order_ids respFailThenOk twoResults = none := by decide

/-- Claim C4 (amended): a non-200 response to an individual order request
does not itself abort the loop — the failed result's byte size is still
appended while no order id is — but any later successful order then
reads `order_ids[i]` out of range and the whole call aborts, storing
nothing.  Hence in the runs that complete with a failure — exactly
those where the failures are the orders from some index m on (m < K:
every success precedes every failure, at least one failure) —
`get_order_ids` stores all K byte sizes but only the m leading order
ids, index-aligned with the first m results only: the ids list is
strictly shorter than the sizes list, which has length K. -/
theorem get_order_ids_failed_order (resp : Nat → OrderResponse)
    (results : List ResultDesc) (m : Nat) (hm : m < results.length)
    (hsucc : ∀ i, i < m → (resp i).code = 200)
    (hfail : ∀ i, i < results.length → m ≤ i → (resp i).code ≠ 200) :
    get_order_ids resp results =
      some ((List.range m).map (fun i => (resp i).orderId),
            results.map ResultDesc.size) ∧
    ((List.range m).map (fun i => (resp i).orderId)).length <
      (results.map ResultDesc.size).length ∧
    (results.map ResultDesc.size).length = results.length := by
  refine ⟨?_, by simpa using hm, by simp⟩
  have hr := getOrderIdsLoop_run resp results m 0 [] []
    (Nat.le_of_lt hm) (fun _ => rfl)
    (by intro q hq; simpa using hsucc q hq)
    (by intro q hq1 hq2; simpa using hfail q hq2 hq1)
  rw [get_order_ids, hr]
  simp

/-- Order-endpoint responses for the C4 witness: the second POST fails with
HTTP 500, the first succeeds. -/
def respSecondFails : Nat → OrderResponse :=
  fun i => if i = 1 then ⟨500, "none"⟩ else ⟨200, "ord-a"⟩

/-- Witness for the amended C4: with two results and the second (last)
order failing, the call completes with one id against two sizes. -/
theorem get_order_ids_failed_order_witness :
    get_order_ids respSecondFails twoResults =
      some (["ord-a"], [1000, 2000]) := by
  have h := get_order_ids_failed_order respSecondFails twoResults 1
    (by decide) (by decide) (by decide)
  rw [h.1]
  decide

/-! ### Claim theorems: terms acceptance -/

/-- Claim C5: `acceptTandC` issues a PUT acceptance request exactly when
the GET of the terms flag returns `accepted = false` (so none when the
terms are already accepted, exactly one otherwise), and two successive
calls issue at most one PUT in total, since the PUT records acceptance
server-side. -/
theorem acceptTandC_idempotent (s : TandCServer) :
    (acceptTandC s).puts = (if s.accepted then 0 else 1) ∧
    (acceptTandC s).puts + (acceptTandC ((acceptTandC s).server)).puts ≤ 1 := by
  rcases s with ⟨a⟩
  cases a <;> simp [acceptTandC]

/-! ### Lemmas about the download loop -/

theorem foldl_dlStep (chunks : List (List Nat)) :
    ∀ st : DLState, chunks.foldl dlStep st =
      ⟨st.file ++ chunks.flatten, st.dl + (chunks.map List.length).sum⟩ := by
  induction chunks with
  | nil =>
      intro st
      cases st
      simp
  | cons c cs ih =>
      intro st
      simp only [List.foldl_cons, ih, dlStep, List.flatten, List.map_cons,
        List.sum_cons, DLState.mk.injEq]
      constructor
      · rw [List.append_assoc]
      · omega

theorem dlAfter_eq (chunks : List (List Nat)) (n : Nat) :
    dlAfter chunks n = ((chunks.take n).map List.length).sum := by
  rw [dlAfter, foldl_dlStep]
  simp

theorem dlAfter_mono (chunks : List (List Nat)) :
    ∀ m n, m ≤ n → dlAfter chunks m ≤ dlAfter chunks n := by
  have step : ∀ k, dlAfter chunks k ≤ dlAfter chunks (k + 1) := by
    intro k
    rw [dlAfter_eq, dlAfter_eq, List.take_succ]
    simp
  intro m n h
  exact monotone_nat_of_le_succ step h

/-! ### Claim theorems: download -/

/-- Claim C6: when the streamed request returns HTTP 200, `downloadFile`
writes one file holding exactly the concatenation of the received
chunks — its byte length is the total stream length — and the reported
cumulative `dl` counter is monotonically non-decreasing over the course
of the download. -/
theorem downloadFile_success (code : Nat) (chunks : List (List Nat))
    (h : code = 200) :
    downloadFile code chunks =
      some ⟨chunks.flatten, (chunks.map List.length).sum⟩ ∧
    chunks.flatten.length = (chunks.map List.length).sum ∧
    (∀ m n, m ≤ n → dlAfter chunks m ≤ dlAfter chunks n) := by
  refine ⟨?_, List.length_flatten chunks, dlAfter_mono chunks⟩
  subst h
  rw [downloadFile, if_pos rfl, foldl_dlStep]
  simp

/-- Witness for C6: a 200 response with chunks of sizes 2 and 1 yields the
3-byte concatenation, and the reported counts grow monotonically. -/
theorem downloadFile_success_witness :
    downloadFile 200 [[1, 2], [3]] = some ⟨[1, 2, 3], 3⟩ ∧
    dlAfter [[1, 2], [3]] 1 ≤ dlAfter [[1, 2], [3]] 2 := by
  have h := downloadFile_success 200 [[1, 2], [3]] rfl
  refine ⟨?_, h.2.2 1 2 (by omega)⟩
  rw [h.1]
  decide

/-- Claim C10: for any HTTP status other than 200 the success branch of
`downloadFile` — opening the target file, the chunk loop, the return of
the elapsed time — is skipped entirely: no file is created, no byte is
written, and the function returns `None`. -/
theorem downloadFile_non200 (code : Nat) (chunks : List (List Nat))
    (h : code ≠ 200) : downloadFile code chunks = none := by
  rw [downloadFile, if_neg h]

/-- Witness for C10 at a concrete failed request. -/
theorem downloadFile_non200_witness :
    downloadFile 404 [[1, 2], [3]] = none :=
  downloadFile_non200 404 [[1, 2], [3]] (by decide)

/-! ### Claim theorems: authentication -/

/-- Claim C8: when the token request returns a non-200 code,
`get_access_token` raises before storing anything: the session keeps no
access token and no headers entry (here: it is returned unchanged with
the raised flag set), and a subsequent call that reads the headers key
fails. -/
theorem get_access_token_failure (hda : AuthSession) (resp : TokenResponse)
    (hcode : resp.code ≠ 200) (hnone : hda.headers = none) :
    (get_access_token hda resp).2 = true ∧
    (get_access_token hda resp).1 = hda ∧
    requestWithHeaders (get_access_token hda resp).1 =
      Except.error "KeyError" := by
  have h1 : get_access_token hda resp = (hda, true) := by
    rw [get_access_token, if_neg hcode]
  refine ⟨by rw [h1], by rw [h1], ?_⟩
  rw [h1]
  show requestWithHeaders hda = Except.error "KeyError"
  rw [requestWithHeaders, hnone]

/-- Witness for C8: a fresh session and a 403 token response. -/
theorem get_access_token_failure_witness :
    (get_access_token ⟨none, none⟩ ⟨403, "tok"⟩).2 = true ∧
    (get_access_token ⟨none, none⟩ ⟨403, "tok"⟩).1 = ⟨none, none⟩ ∧
    requestWithHeaders (get_access_token ⟨none, none⟩ ⟨403, "tok"⟩).1 =
      Except.error "KeyError" :=
  get_access_token_failure ⟨none, none⟩ ⟨403, "tok"⟩ (by decide) rfl

/-! ### Claim theorems: api key -/

/-- Claim C9: `generate_api_key` is deterministic — the same arguments give
the same key — and reversible: base64-decoding the key yields exactly
the bytes of the username, a colon (byte 58), and the password. -/
theorem generate_api_key_reversible (u p : List Nat)
    (hu : ∀ b ∈ u, b < 256) (hp : ∀ b ∈ p, b < 256) :
    generate_api_key u p = generate_api_key u p ∧
    b64decode (generate_api_key u p) = some (u ++ 58 :: p) := by
  refine ⟨rfl, ?_⟩
  apply b64_roundtrip
  intro b hb
  rcases List.mem_append.mp hb with h | h
  · exact hu b h
  · rcases List.mem_cons.mp h with h | h
    · omega
    · exact hp b h

/-- Witness for C9: the bytes of "user" and "pass"; the key decodes back to
the bytes of "user:pass". -/
theorem generate_api_key_reversible_witness :
    b64decode (generate_api_key [117, 115, 101, 114] [112, 97, 115, 115]) =
      some [117, 115, 101, 114, 58, 112, 97, 115, 115] := by
  have h := generate_api_key_reversible [117, 115, 101, 114]
    [112, 97, 115, 115] (by decide) (by decide)
  simpa using h.2

end Hda
